import Mathlib

/-!
Verification of the PokeAPI SDK client (`src/pokeapi_sdk/client.py`) against
its natural-language specification.  The Python client is shallowly embedded:
each method becomes a Lean function parameterised by the remote service,
modelled as a function from request endpoints to responses.  HTTP failures are
modelled by an explicit error type, and the JSON shapes the client reads are
modelled as Lean structures carrying exactly the fields the code accesses.
-/

namespace PokeSDK

/-! ## Python string primitives used by the client -/

/-- Python `str.lower()` on the ASCII range, as used by the client to
normalise identifiers.  Lean's `Char.toLower` lowers exactly the ASCII
uppercase letters, matching CPython's behaviour on ASCII input. -/
def pyLower (s : String) : String := ⟨s.data.map Char.toLower⟩

/-- Python `str.replace(old, new)` for a single-character pattern and a
single-character replacement: every occurrence of `c` becomes `r`. -/
def pyReplaceChar (c r : Char) (s : String) : String :=
  ⟨s.data.map (fun a => if a = c then r else a)⟩

/-- Helper for `str.split(sep)`: split a character list at every occurrence
of `sep`, keeping empty groups, exactly as Python's `split` with an explicit
separator does. -/
def splitOnChar (sep : Char) : List Char → List (List Char)
  | [] => [[]]
  | c :: cs =>
    match splitOnChar sep cs with
    | [] => [[]]
    | g :: gs => if c = sep then [] :: g :: gs else (c :: g) :: gs

/-- Python `url.split('/')`. -/
def pySplitSlash (s : String) : List String :=
  (splitOnChar '/' s.data).map (fun l => ⟨l⟩)

/-- Value of a nonempty all-digit character list, for `int()` parsing. -/
def digitsVal? (cs : List Char) : Option Nat :=
  if cs ≠ [] ∧ cs.all (fun c => c.isDigit) then
    some (cs.foldl (fun a c => a * 10 + (c.toNat - 48)) 0)
  else none

/-- Python `int(s)` on the inputs the client feeds it: an optional sign
followed by decimal digits.  (CPython additionally strips whitespace and
permits underscores; the URLs the client parses contain neither.) -/
def pyInt? (s : String) : Option Int :=
  match s.data with
  | '-' :: rest => (digitsVal? rest).map (fun n => -(n : Int))
  | '+' :: rest => (digitsVal? rest).map (fun n => (n : Int))
  | cs => (digitsVal? cs).map (fun n => (n : Int))

/-- Python `l[-2]`: the second-to-last element, defined only when the list
has at least two elements (otherwise CPython raises `IndexError`). -/
def pySecondToLast? (l : List α) : Option α :=
  if h : 2 ≤ l.length then some (l.get ⟨l.length - 2, by omega⟩) else none

/-- Python `str(x)` for the `Union[int, str]` identifiers the client accepts. -/
inductive PyIdent where
  | int (n : Int)
  | str (s : String)
deriving DecidableEq

/-- String rendering of an identifier, as `str(identifier)` produces. -/
def pyStr : PyIdent → String
  | .int n => toString n
  | .str s => s

/-! ## Error model and JSON shapes -/

/-- Failures of `_make_request` / `_make_request_to_url`: `raise_for_status`
raises `requests.exceptions.HTTPError` carrying the response status for a
non-success status; every other `requests.exceptions.RequestException`
(DNS, connection, timeout) is a transport failure. -/
inductive ReqError where
  | httpStatus (code : Nat)
  | transport
deriving DecidableEq

/-- Resource summary `{name, url}` as returned in listings. -/
structure NamedRes where
  name : String
  url : String
deriving DecidableEq

/-- The fields of a paginated collection page that the client reads. -/
structure PageData where
  count : Nat
  results : List NamedRes
deriving DecidableEq

/-! ## Pagination generator (`get_all_resource_generator`)

The remote is modelled as a total function from `(resource_name, limit,
offset)` to the page served there, i.e. `get_paginated_resource` with its
request already answered.  The Python generator is an unbounded `while True`
loop; its observable output is modelled by running the loop body a given
number `fuel` of iterations (each iteration fetches exactly one page), so the
whole — possibly infinite — yielded sequence is the limit of these
approximations. -/

/-- Loop body of `get_all_resource_generator`: fetch the page at the current
offset, stop if its `results` is empty, otherwise yield the results and
advance the offset by `limit`.  `fuel` bounds the number of page fetches. -/
def streamLoop (fetch : String → Nat → Nat → PageData) (resource_name : String)
    (limit : Nat) : Nat → Nat → List NamedRes
  | 0, _ => []
  | fuel + 1, offset =>
    let results := (fetch resource_name limit offset).results
    if results = [] then []
    else results ++ streamLoop fetch resource_name limit fuel (offset + limit)

/-- `get_all_resource_generator(resource_name, limit)`: the loop started at
offset `0`, observed for `fuel` page fetches. -/
def get_all_resource_generator (fetch : String → Nat → Nat → PageData)
    (resource_name : String) (limit : Nat) (fuel : Nat) : List NamedRes :=
  streamLoop fetch resource_name limit fuel 0

/-- `get_all_resource_generator` with its Python default `limit=100`. -/
def get_all_resource_generator_default (fetch : String → Nat → Nat → PageData)
    (resource_name : String) (fuel : Nat) : List NamedRes :=
  get_all_resource_generator fetch resource_name 100 fuel

/-- Modelled from the spec (§4.4): maintain an offset starting at 0;
repeatedly fetch one page of `pageSize` at the current offset; yield each
summary of the page in order; advance the offset by `pageSize`; stop when a
fetched page's `results` is empty. -/
def streamAllSpec (fetch : String → Nat → Nat → PageData) (collection : String)
    (pageSize : Nat) : Nat → Nat → List NamedRes
  | 0, _ => []
  | fuel + 1, offset =>
    match (fetch collection pageSize offset).results with
    | [] => []
    | r :: rs => (r :: rs) ++ streamAllSpec fetch collection pageSize fuel (offset + pageSize)

theorem streamLoop_eq_streamAllSpec (fetch : String → Nat → Nat → PageData)
    (collection : String) (pageSize : Nat) :
    ∀ fuel offset, streamLoop fetch collection pageSize fuel offset =
      streamAllSpec fetch collection pageSize fuel offset := by
  intro fuel
  induction fuel with
  | zero => intro offset; rfl
  | succ n ih =>
    intro offset
    rw [streamLoop, streamAllSpec]
    cases h : (fetch collection pageSize offset).results with
    | nil => simp [h]
    | cons r rs => simp [h, ih]

theorem streamLoop_consistent_pages (fetch : String → Nat → Nat → PageData)
    (collection : String) (limit : Nat) (all : List NamedRes)
    (hlim : 0 < limit)
    (hpages : ∀ offset, (fetch collection limit offset).results =
      (all.drop offset).take limit) :
    ∀ fuel offset, all.length ≤ offset + fuel * limit →
      streamLoop fetch collection limit fuel offset = all.drop offset := by
  intro fuel
  induction fuel with
  | zero =>
    intro offset h
    simp only [Nat.zero_mul, Nat.add_zero] at h
    rw [streamLoop, List.drop_eq_nil_of_le h]
  | succ n ih =>
    intro offset h
    have hmul : (n + 1) * limit = n * limit + limit := Nat.succ_mul n limit
    rw [streamLoop]
    simp only [hpages offset]
    by_cases hempty : (all.drop offset).take limit = []
    · rw [if_pos hempty]
      rcases List.take_eq_nil_iff.mp hempty with h0 | hnil
      · omega
      · exact hnil.symm
    · rw [if_neg hempty, ih (offset + limit) (by omega)]
      conv_rhs => rw [← List.take_append_drop limit (all.drop offset)]
      rw [List.drop_drop]

/-- C1: for every collection name and every pageSize, the sequence produced
by `get_all_resource_generator` follows exactly the spec's algorithm
(`streamAllSpec`, transcribed from the spec's words): starting from offset 0,
fetch one page of `pageSize` at the current offset, yield every summary of the
page in order, advance the offset by `pageSize`, and stop as soon as a fetched
page's `results` is empty; moreover the pageSize defaults to 100. -/
theorem claim_C1_streamAll_algorithm :
    ∀ (fetch : String → Nat → Nat → PageData) (collection : String) (pageSize fuel : Nat),
      get_all_resource_generator fetch collection pageSize fuel =
        streamAllSpec fetch collection pageSize fuel 0 ∧
      get_all_resource_generator_default fetch collection fuel =
        get_all_resource_generator fetch collection 100 fuel := by
  intro fetch collection pageSize fuel
  exact ⟨streamLoop_eq_streamAllSpec fetch collection pageSize fuel 0, rfl⟩

/-- C2: for every collection whose remote reports a finite count and serves
consistent pages (the page at offset `k` holds positions `k..k+pageSize-1` of
a fixed finite sequence `all` of length `count`, and is empty beyond it),
`get_all_resource_generator` terminates — its output is the same for every
sufficiently large page-fetch budget — and yields exactly the `count`
summaries of `all`, with no duplicates, no gaps, in the remote's page order. -/
theorem claim_C2_streamAll_complete
    (fetch : String → Nat → Nat → PageData) (collection : String)
    (pageSize : Nat) (all : List NamedRes) (fuel : Nat)
    (hlim : 0 < pageSize)
    (hpages : ∀ offset, (fetch collection pageSize offset).results =
      (all.drop offset).take pageSize)
    (hcount : (fetch collection pageSize 0).count = all.length)
    (hfuel : all.length < fuel * pageSize) :
    get_all_resource_generator fetch collection pageSize fuel = all ∧
    (get_all_resource_generator fetch collection pageSize fuel).length =
      (fetch collection pageSize 0).count := by
  have h := streamLoop_consistent_pages fetch collection pageSize all hlim hpages fuel 0
    (by omega)
  rw [List.drop_zero] at h
  rw [get_all_resource_generator, h, hcount]
  exact ⟨rfl, rfl⟩

/-- Concrete three-summary collection used to witness `claim_C2_streamAll_complete`. -/
def demoSummaries : List NamedRes :=
  [⟨"bulbasaur", "u1"⟩, ⟨"ivysaur", "u2"⟩, ⟨"venusaur", "u3"⟩]

/-- Remote serving `demoSummaries` with consistent limit/offset pages. -/
def demoPagedFetch : String → Nat → Nat → PageData :=
  fun _ l o => ⟨demoSummaries.length, (demoSummaries.drop o).take l⟩

/-- Witness for C2: on a concrete consistent three-element remote, paged with
pageSize 2 and fuel 2, the generator returns the full collection. -/
theorem claim_C2_streamAll_complete_witness :
    get_all_resource_generator demoPagedFetch "pokemon" 2 2 = demoSummaries ∧
    (get_all_resource_generator demoPagedFetch "pokemon" 2 2).length =
      (demoPagedFetch "pokemon" 2 0).count :=
  claim_C2_streamAll_complete demoPagedFetch "pokemon" 2 demoSummaries 2
    (by decide) (fun _ => rfl) rfl (by decide)

/-! ## Case normalisation -/

theorem char_toNat_ofNat_valid (n : Nat) (h : n.isValidChar) :
    (Char.ofNat n).toNat = n := by
  unfold Char.ofNat
  rw [dif_pos h]
  rfl

theorem char_toLower_toNat (c : Char) :
    (Char.toLower c).toNat =
      if c.toNat ≥ 65 ∧ c.toNat ≤ 90 then c.toNat + 32 else c.toNat := by
  unfold Char.toLower
  by_cases h : c.toNat ≥ 65 ∧ c.toNat ≤ 90
  · rw [if_pos h, if_pos h, char_toNat_ofNat_valid]
    left
    omega
  · rw [if_neg h, if_neg h]

theorem char_toLower_eq_self (d : Char) (h : ¬(d.toNat ≥ 65 ∧ d.toNat ≤ 90)) :
    Char.toLower d = d := by
  unfold Char.toLower
  rw [if_neg h]

theorem char_toLower_idem (c : Char) :
    Char.toLower (Char.toLower c) = Char.toLower c := by
  apply char_toLower_eq_self
  have h := char_toLower_toNat c
  by_cases hc : c.toNat ≥ 65 ∧ c.toNat ≤ 90
  · rw [if_pos hc] at h
    omega
  · rw [if_neg hc] at h
    omega

theorem pyLower_idem (s : String) : pyLower (pyLower s) = pyLower s := by
  unfold pyLower
  apply congrArg String.mk
  rw [List.map_map]
  exact List.map_congr_left (fun c _ => char_toLower_idem c)

/-! ## Single-resource getters (`get_pokemon`, `get_generation`)

The remote is one function from endpoint paths to the response for that
path; the record type is abstract since the getters return the record
unchanged. -/

/-- `get_pokemon(identifier)`: fetch `"pokemon/{str(identifier).lower()}"`. -/
def get_pokemon (fetch : String → Except ReqError α) (identifier : PyIdent) :
    Except ReqError α :=
  fetch ("pokemon/" ++ pyLower (pyStr identifier))

/-- `get_generation(identifier)`: fetch `"generation/{str(identifier).lower()}"`. -/
def get_generation (fetch : String → Except ReqError α) (identifier : PyIdent) :
    Except ReqError α :=
  fetch ("generation/" ++ pyLower (pyStr identifier))

/-- C8: the single-resource getters normalise the identifier to a lower-case
string before building the request path `"{collection}/{identifier}"`, so for
any name string `s` the request issued for `s` is the request issued for
`lowercase(s)` — name lookup is case-insensitive. -/
theorem claim_C8_lowercase_normalisation :
    ∀ (α : Type) (fetch : String → Except ReqError α) (s : String),
      get_pokemon fetch (.str s) = get_pokemon fetch (.str (pyLower s)) ∧
      get_generation fetch (.str s) = get_generation fetch (.str (pyLower s)) ∧
      (∀ p : PyIdent, get_pokemon fetch p = fetch ("pokemon/" ++ pyLower (pyStr p))) ∧
      (∀ p : PyIdent, get_generation fetch p = fetch ("generation/" ++ pyLower (pyStr p))) := by
  intro α fetch s
  refine ⟨?_, ?_, fun _ => rfl, fun _ => rfl⟩
  · unfold get_pokemon
    rw [pyStr, pyStr, pyLower_idem]
  · unfold get_generation
    rw [pyStr, pyStr, pyLower_idem]

/-! ## Client state (`__init__` fields)

The client object holds a session (its headers) and a timeout; no method of
the Python class ever assigns to `self.session` or `self.timeout`, so each
embedded call passes the state through unchanged. -/

/-- Observable client state: the session's headers and the timeout. -/
structure ClientState where
  headers : List (String × String)
  timeout : Nat
deriving DecidableEq

/-- `get_pokemon` with the client state made explicit: the remote sees the
state (headers, timeout) and the endpoint; the method body never mutates
`self`, so the state is returned unchanged. -/
def get_pokemon_st (remote : ClientState → String → Except ReqError α)
    (st : ClientState) (identifier : PyIdent) :
    Except ReqError α × ClientState :=
  (remote st ("pokemon/" ++ pyLower (pyStr identifier)), st)

/-- `get_generation` with the client state made explicit. -/
def get_generation_st (remote : ClientState → String → Except ReqError α)
    (st : ClientState) (identifier : PyIdent) :
    Except ReqError α × ClientState :=
  (remote st ("generation/" ++ pyLower (pyStr identifier)), st)

/-- C9: against a fixed remote, two successive `get_pokemon` (resp.
`get_generation`) calls with the same identifier return structurally equal
records, and neither call changes any client state observable by the other:
the state after each call is the initial state. -/
theorem claim_C9_getResource_idempotent :
    ∀ (α : Type) (remote : ClientState → String → Except ReqError α)
      (st : ClientState) (p : PyIdent),
      (get_pokemon_st remote (get_pokemon_st remote st p).2 p).1 =
        (get_pokemon_st remote st p).1 ∧
      (get_pokemon_st remote st p).2 = st ∧
      (get_pokemon_st remote (get_pokemon_st remote st p).2 p).2 = st ∧
      (get_generation_st remote (get_generation_st remote st p).2 p).1 =
        (get_generation_st remote st p).1 ∧
      (get_generation_st remote st p).2 = st ∧
      (get_generation_st remote (get_generation_st remote st p).2 p).2 = st := by
  intro α remote st p
  exact ⟨rfl, rfl, rfl, rfl, rfl, rfl⟩

/-! ## Type-filtered search (`find_pokemon_by_type`) -/

/-- One membership entry of a type record: `{pokemon: {name, url}, slot: …}`;
the client reads only the inner `pokemon` summary. -/
structure TypeSlot where
  pokemon : NamedRes
deriving DecidableEq

/-- The field of a type record the client reads: its `pokemon` member list. -/
structure TypeRecord where
  pokemon : List TypeSlot
deriving DecidableEq

/-- `find_pokemon_by_type(type_name)`: fetch `"type/{type_name.lower()}"`
once and yield the inner `pokemon` summary of each membership entry in the
remote's order. -/
def find_pokemon_by_type (fetchType : String → Except ReqError TypeRecord)
    (type_name : String) : Except ReqError (List NamedRes) :=
  (fetchType ("type/" ++ pyLower type_name)).map (fun td =>
    td.pokemon.map (fun slot => slot.pokemon))

/-- C10: `find_pokemon_by_type` lower-cases its argument before building the
request path `"type/{t}"`, so the yielded sequence is invariant under the
casing of the argument: the call for `t` equals the call for `lowercase(t)`. -/
theorem claim_C10_find_by_type_case_insensitive :
    ∀ (fetchType : String → Except ReqError TypeRecord) (t : String),
      find_pokemon_by_type fetchType t =
        find_pokemon_by_type fetchType (pyLower t) := by
  intro fetchType t
  unfold find_pokemon_by_type
  rw [pyLower_idem]

/-! ## Flavor text (`get_flavor_text`) -/

/-- One entry of `flavor_text_entries`, with the fields the client reads:
`flavor_text`, `language.name`, `version.name`. -/
structure FlavorEntry where
  flavor_text : String
  language_name : String
  version_name : String
deriving DecidableEq

/-- The field of a species record `get_flavor_text` reads. -/
structure SpeciesRecord where
  flavor_text_entries : List FlavorEntry
deriving DecidableEq

/-- Text clean-up of the source: `.replace('\n', ' ').replace('\f', ' ')`. -/
def cleanFlavor (s : String) : String :=
  pyReplaceChar '\x0c' ' ' (pyReplaceChar '\n' ' ' s)

/-- Linear scan of `get_flavor_text`: return the cleaned `flavor_text` of the
first entry whose `language.name` equals `language` and whose `version.name`
equals `version`; `none` when no entry matches. -/
def findFlavor (version language : String) : List FlavorEntry → Option String
  | [] => none
  | e :: rest =>
    if e.language_name = language ∧ e.version_name = version then
      some (cleanFlavor e.flavor_text)
    else findFlavor version language rest

/-- `get_flavor_text(pokemon_identifier, version, language)`: fetch the
species record at `"pokemon-species/{str(identifier).lower()}"` and scan its
`flavor_text_entries`. -/
def get_flavor_text (fetchSpecies : String → Except ReqError SpeciesRecord)
    (pokemon_identifier : PyIdent) (version language : String) :
    Except ReqError (Option String) :=
  (fetchSpecies ("pokemon-species/" ++ pyLower (pyStr pokemon_identifier))).map
    (fun sd => findFlavor version language sd.flavor_text_entries)

/-- Modelled from the spec (§4.6): replace every embedded newline and
form-feed character by a single space. -/
def cleanFlavorSpec (s : String) : String :=
  ⟨s.data.map (fun c => if c = '\n' ∨ c = '\x0c' then ' ' else c)⟩

theorem cleanFlavor_eq_spec (s : String) : cleanFlavor s = cleanFlavorSpec s := by
  unfold cleanFlavor cleanFlavorSpec pyReplaceChar
  apply congrArg String.mk
  rw [List.map_map]
  apply List.map_congr_left
  intro c _
  by_cases h1 : c = '\n'
  · simp [h1]
  · by_cases h2 : c = '\x0c' <;> simp [h1, h2]

theorem findFlavor_eq_find? (version language : String) :
    ∀ entries : List FlavorEntry,
      findFlavor version language entries =
        (entries.find? (fun e =>
          e.language_name = language ∧ e.version_name = version)).map
          (fun e => cleanFlavor e.flavor_text) := by
  intro entries
  induction entries with
  | nil => rfl
  | cons e rest ih =>
    rw [findFlavor, List.find?]
    by_cases h : e.language_name = language ∧ e.version_name = version
    · simp [h]
    · simp [h, ih]

/-- C7: for every species record, `get_flavor_text` returns the
`flavor_text` of the first entry of `flavor_text_entries` whose language name
and version name both equal the given arguments (exact, case-sensitive
string equality), with every embedded newline and form-feed character
replaced by a single space; when no entry matches both it returns `none`
rather than an error. -/
theorem claim_C7_flavor_text
    (fetchSpecies : String → Except ReqError SpeciesRecord)
    (pokemon_identifier : PyIdent) (version language : String)
    (sd : SpeciesRecord)
    (hfetch : fetchSpecies
      ("pokemon-species/" ++ pyLower (pyStr pokemon_identifier)) = .ok sd) :
    get_flavor_text fetchSpecies pokemon_identifier version language =
      .ok ((sd.flavor_text_entries.find? (fun e =>
          e.language_name = language ∧ e.version_name = version)).map
        (fun e => cleanFlavorSpec e.flavor_text)) ∧
    (sd.flavor_text_entries.find? (fun e =>
        e.language_name = language ∧ e.version_name = version) = none →
      get_flavor_text fetchSpecies pokemon_identifier version language =
        .ok none) := by
  have hmain : get_flavor_text fetchSpecies pokemon_identifier version language =
      .ok ((sd.flavor_text_entries.find? (fun e =>
          e.language_name = language ∧ e.version_name = version)).map
        (fun e => cleanFlavorSpec e.flavor_text)) := by
    rw [get_flavor_text, hfetch, Except.map, findFlavor_eq_find?]
    have : (fun e : FlavorEntry => cleanFlavor e.flavor_text) =
        (fun e : FlavorEntry => cleanFlavorSpec e.flavor_text) := by
      funext e
      exact cleanFlavor_eq_spec e.flavor_text
    rw [this]
  refine ⟨hmain, fun hnone => ?_⟩
  rw [hmain, hnone]
  rfl

/-- Species record used to witness `claim_C7_flavor_text`: the second entry
is the first one matching language `en` and version `sword`. -/
def demoSpecies : SpeciesRecord :=
  ⟨[⟨"Bonjour", "fr", "sword"⟩, ⟨"It makes\nsparks\x0cfly.", "en", "sword"⟩]⟩

/-- Witness for C7: on a concrete species record, the matching entry's text
is returned with newline and form feed turned into spaces. -/
theorem claim_C7_flavor_text_witness :
    get_flavor_text (fun _ => .ok demoSpecies) (.str "pikachu") "sword" "en" =
      .ok ((demoSpecies.flavor_text_entries.find? (fun e =>
          e.language_name = "en" ∧ e.version_name = "sword")).map
        (fun e => cleanFlavorSpec e.flavor_text)) :=
  (claim_C7_flavor_text (fun _ => .ok demoSpecies) (.str "pikachu") "sword" "en"
    demoSpecies rfl).1

/-! ## Evolution chains (`get_evolution_chain`, `_traverse_chain`) -/

/-- A node of the evolution-chain tree: `{species: {name}, evolves_to: [...]}`. -/
inductive ChainLink where
  | node (species_name : String) (evolves_to : List ChainLink)

/-- The field of the evolution-chain record the client reads: its root node. -/
structure EvolutionChainRecord where
  chain : ChainLink

/-- The fields of the species record `get_evolution_chain` reads:
`evolution_chain.url`. -/
structure EvoSpecies where
  evolution_chain_url : String
deriving DecidableEq

mutual

/-- `_traverse_chain(chain_link)`: append the node's species name to the
accumulator list `chain`, then recurse into each child of `evolves_to` in
order (the `if 'evolves_to' in … and …` guard only skips an empty loop). -/
def traverseChain : ChainLink → List String → List String
  | .node s children, acc => traverseChildren children (acc ++ [s])

/-- The `for next_link in chain_link['evolves_to']` loop of `_traverse_chain`. -/
def traverseChildren : List ChainLink → List String → List String
  | [], acc => acc
  | c :: cs, acc => traverseChildren cs (traverseChain c acc)

end

mutual

/-- Modelled from the spec (§4.7): pre-order depth-first traversal — a node
contributes its species name before any of its descendants, and children are
visited left-to-right in the order given by `evolves_to`. -/
def preorderNames : ChainLink → List String
  | .node s children => s :: preorderChildren children

/-- Pre-order traversal of a child list, left-to-right, each branch fully
before the next. -/
def preorderChildren : List ChainLink → List String
  | [] => []
  | c :: cs => preorderNames c ++ preorderChildren cs

end

mutual

theorem traverseChain_eq_preorder :
    ∀ (t : ChainLink) (acc : List String),
      traverseChain t acc = acc ++ preorderNames t
  | .node s children, acc => by
    rw [traverseChain, preorderNames,
      traverseChildren_eq_preorder children (acc ++ [s])]
    simp

theorem traverseChildren_eq_preorder :
    ∀ (ls : List ChainLink) (acc : List String),
      traverseChildren ls acc = acc ++ preorderChildren ls
  | [], acc => by
    rw [traverseChildren, preorderChildren, List.append_nil]
  | c :: cs, acc => by
    rw [traverseChildren, preorderChildren,
      traverseChain_eq_preorder c acc,
      traverseChildren_eq_preorder cs (acc ++ preorderNames c)]
    rw [List.append_assoc]

end

/-- Body of the `try` block of `get_evolution_chain`: fetch the species
record at `"pokemon-species/{str(identifier).lower()}"`, follow its
`evolution_chain.url`, fetch the chain record, and traverse its `chain` tree
into an initially empty accumulator. -/
def evoChainBody (fetchSpecies : String → Except ReqError EvoSpecies)
    (fetchChain : String → Except ReqError EvolutionChainRecord)
    (pokemon_identifier : PyIdent) : Except ReqError (List String) := do
  let sd ← fetchSpecies ("pokemon-species/" ++ pyLower (pyStr pokemon_identifier))
  let cd ← fetchChain sd.evolution_chain_url
  pure (traverseChain cd.chain [])

/-- `get_evolution_chain(pokemon_identifier)`: run the body; the
`except requests.exceptions.HTTPError: return None` clause turns every
HTTP-status failure raised anywhere inside the body into `none`, while
other request failures propagate. -/
def get_evolution_chain (fetchSpecies : String → Except ReqError EvoSpecies)
    (fetchChain : String → Except ReqError EvolutionChainRecord)
    (pokemon_identifier : PyIdent) : Except ReqError (Option (List String)) :=
  match evoChainBody fetchSpecies fetchChain pokemon_identifier with
  | .ok names => .ok (some names)
  | .error (.httpStatus _) => .ok none
  | .error .transport => .error .transport

/-- Charmander's linear three-node evolution chain. -/
def charmanderChain : ChainLink :=
  .node "charmander" [.node "charmeleon" [.node "charizard" []]]

/-- C6: the name list built by `_traverse_chain` from the root of the chain
tree is the pre-order depth-first traversal (`preorderNames`, transcribed
from the spec's words): each node before its descendants, children
left-to-right, each branch fully before the next; and on charmander's linear
chain `get_evolution_chain` returns exactly its three names root-first. -/
theorem claim_C6_preorder_traversal :
    (∀ t : ChainLink, traverseChain t [] = preorderNames t) ∧
    get_evolution_chain (fun _ => .ok ⟨"evolution-chain/2/"⟩)
      (fun _ => .ok ⟨charmanderChain⟩) (.str "charmander") =
      .ok (some ["charmander", "charmeleon", "charizard"]) := by
  constructor
  · intro t
    rw [traverseChain_eq_preorder, List.nil_append]
  · rw [get_evolution_chain]
    have hbody : evoChainBody (fun _ => .ok ⟨"evolution-chain/2/"⟩)
        (fun _ => .ok ⟨charmanderChain⟩) (.str "charmander") =
        .ok ["charmander", "charmeleon", "charizard"] := by
      simp [evoChainBody, charmanderChain, traverseChain, traverseChildren,
        bind, Except.bind, pure, Except.pure]
    rw [hbody]

theorem get_evolution_chain_spec (fS : String → Except ReqError EvoSpecies)
    (fC : String → Except ReqError EvolutionChainRecord) (p : PyIdent) :
    (get_evolution_chain fS fC p = .ok none ↔
      ∃ s, evoChainBody fS fC p = .error (.httpStatus s)) ∧
    (get_evolution_chain fS fC p = .error .transport ↔
      evoChainBody fS fC p = .error .transport) ∧
    (∀ names, get_evolution_chain fS fC p = .ok (some names) ↔
      evoChainBody fS fC p = .ok names) := by
  cases hE : evoChainBody fS fC p with
  | ok names0 => simp [get_evolution_chain, hE]
  | error err =>
    cases err with
    | httpStatus s0 => simp [get_evolution_chain, hE]
    | transport => simp [get_evolution_chain, hE]

/-- C5 counterexample: when the species lookup fails with HTTP status 500 —
not a not-found condition — `get_evolution_chain` still returns `none`
instead of propagating the failure, contradicting the claim that only a
not-found species lookup is downgraded and that any other HTTP-level failure
propagates to the caller. -/
theorem claim_C5_counterexample :
    get_evolution_chain (fun _ => .error (.httpStatus 500))
      (fun _ => .ok ⟨.node "abra" []⟩) (.str "abra") = .ok none ∧
    (fun _ : String => (.error (.httpStatus 500) : Except ReqError EvoSpecies))
      ("pokemon-species/" ++ pyLower (pyStr (.str "abra"))) =
      .error (.httpStatus 500) ∧
    ReqError.httpStatus 500 ≠ ReqError.httpStatus 404 ∧
    (Except.ok none : Except ReqError (Option (List String))) ≠
      .error (.httpStatus 500) := by
  refine ⟨rfl, rfl, by decide, fun h => Except.noConfusion h⟩

/-- C5 amended: `get_evolution_chain` returns `none` exactly when its body —
the species lookup followed by the evolution-chain fetch — fails with an
HTTP-status error of any status (not only not-found, and not only on the
species lookup); transport-level failures propagate; success propagates the
traversal; and every other method propagates all failures of its requests. -/
theorem claim_C5_amended_error_handling :
    ∀ (fS : String → Except ReqError EvoSpecies)
      (fC : String → Except ReqError EvolutionChainRecord) (p : PyIdent),
      (get_evolution_chain fS fC p = .ok none ↔
        ∃ s, evoChainBody fS fC p = .error (.httpStatus s)) ∧
      (get_evolution_chain fS fC p = .error .transport ↔
        evoChainBody fS fC p = .error .transport) ∧
      (∀ names, get_evolution_chain fS fC p = .ok (some names) ↔
        evoChainBody fS fC p = .ok names) ∧
      (∀ (α : Type) (fetch : String → Except ReqError α) (e : ReqError) (q : PyIdent),
        fetch ("pokemon/" ++ pyLower (pyStr q)) = .error e →
          get_pokemon fetch q = .error e) ∧
      (∀ (α : Type) (fetch : String → Except ReqError α) (e : ReqError) (q : PyIdent),
        fetch ("generation/" ++ pyLower (pyStr q)) = .error e →
          get_generation fetch q = .error e) ∧
      (∀ (fetchType : String → Except ReqError TypeRecord) (e : ReqError) (t : String),
        fetchType ("type/" ++ pyLower t) = .error e →
          find_pokemon_by_type fetchType t = .error e) ∧
      (∀ (fetchSp : String → Except ReqError SpeciesRecord) (e : ReqError)
          (q : PyIdent) (v l : String),
        fetchSp ("pokemon-species/" ++ pyLower (pyStr q)) = .error e →
          get_flavor_text fetchSp q v l = .error e) := by
  intro fS fC p
  obtain ⟨h1, h2, h3⟩ := get_evolution_chain_spec fS fC p
  refine ⟨h1, h2, h3, fun α fetch e q h => h, fun α fetch e q h => h,
    fun fT e t h => ?_, fun fSp e q v l h => ?_⟩
  · rw [find_pokemon_by_type, h]
    rfl
  · rw [get_flavor_text, h]
    rfl

/-- Witness for the amended C5: a species lookup failing with HTTP status 500
makes `get_evolution_chain` return `none`. -/
theorem claim_C5_amended_witness :
    get_evolution_chain (fun _ => .error (.httpStatus 500))
      (fun _ => .ok ⟨.node "mew" []⟩) (.str "mew") = .ok none :=
  (claim_C5_amended_error_handling (fun _ => .error (.httpStatus 500))
    (fun _ => .ok ⟨.node "mew" []⟩) (.str "mew")).1.mpr ⟨500, rfl⟩

/-! ## Generation listing (`get_pokemon_by_generation`) -/

/-- The field of a generation record the client reads: `pokemon_species`. -/
structure GenRecord where
  pokemon_species : List NamedRes
deriving DecidableEq

/-- Failures of `get_pokemon_by_generation`: a propagated request failure, or
the `ValueError`/`IndexError` raised by `int(p['url'].split('/')[-2])` on a
member URL without an integer second-to-last path segment. -/
inductive PyError where
  | req (e : ReqError)
  | valueError
deriving DecidableEq

/-- Sort key of the source: `int(p['url'].split('/')[-2])`, defined when the
URL has at least two slash-separated segments and the second-to-last parses
as an integer. -/
def urlKey? (u : String) : Option Int :=
  (pySecondToLast? (pySplitSlash u)).bind pyInt?

/-- Total version of the sort key used under the premise that every URL
parses; the default is never reached then. -/
def genSortKey (p : NamedRes) : Int :=
  (urlKey? p.url).getD 0

/-- Python `list.sort(key=...)`: stable ascending sort comparing keys. -/
def pySortByKey (key : α → Int) (l : List α) : List α :=
  l.mergeSort (fun a b => decide (key a ≤ key b))

theorem pySortByKey_pairwise (key : α → Int) (l : List α) :
    List.Pairwise (fun a b => key a ≤ key b) (pySortByKey key l) := by
  have h := @List.sorted_mergeSort _ (fun a b => decide (key a ≤ key b))
    (fun a b c hab hbc => by
      simp only [decide_eq_true_eq] at hab hbc ⊢
      omega)
    (fun a b => by
      simp only [Bool.or_eq_true, decide_eq_true_eq]
      omega)
    l
  exact h.imp (fun hab => of_decide_eq_true hab)

theorem pySortByKey_length (key : α → Int) (l : List α) :
    (pySortByKey key l).length = l.length :=
  (List.mergeSort_perm l _).length_eq

/-- The `if type_filter:` block of `get_pokemon_by_generation`: when the
filter is supplied and truthy (a non-empty string), build the set of names
yielded by `find_pokemon_by_type` and keep only the members whose name is in
it; otherwise pass the member list through.  Python set membership over the
collected names is modelled as list membership, which tests the same
case-sensitive exact string equality. -/
def applyTypeFilter (fetchType : String → Except ReqError TypeRecord)
    (type_filter : Option String) (members : List NamedRes) :
    Except ReqError (List NamedRes) :=
  match type_filter with
  | some t =>
    if t ≠ "" then
      (find_pokemon_by_type fetchType t).map (fun tl =>
        members.filter (fun p => (tl.map (fun q => q.name)).contains p.name))
    else .ok members
  | none => .ok members

/-- `get_pokemon_by_generation(generation_identifier, limit, offset,
type_filter)`: fetch the generation record, take its `pokemon_species` list,
apply the optional type filter, sort by the integer id embedded in each URL
(CPython's `sort(key=…)` computes every key first, so any unparsable URL
raises before sorting), then apply `[offset:]` and, when a limit is given,
`[:limit]`. -/
def get_pokemon_by_generation (fetchGen : String → Except ReqError GenRecord)
    (fetchType : String → Except ReqError TypeRecord) (gid : PyIdent)
    (limit : Option Nat) (offset : Nat) (type_filter : Option String) :
    Except PyError (List NamedRes) :=
  match fetchGen ("generation/" ++ pyLower (pyStr gid)) with
  | .error e => .error (.req e)
  | .ok gd =>
    match applyTypeFilter fetchType type_filter gd.pokemon_species with
    | .error e => .error (.req e)
    | .ok members =>
      if members.all (fun p => (urlKey? p.url).isSome) then
        let sorted := pySortByKey genSortKey members
        let paginated := sorted.drop offset
        .ok (match limit with
          | some n => paginated.take n
          | none => paginated)
      else .error .valueError

/-- Modelled from the spec (§4.8): sort the (possibly filtered) member list
ascending by the numeric id embedded in each member's URL, drop the first
`offset` elements, and truncate to `limit` elements when a limit is given. -/
def generationMembersSpec (members : List NamedRes) (limit : Option Nat)
    (offset : Nat) : List NamedRes :=
  let sorted := pySortByKey genSortKey members
  match limit with
  | some n => (sorted.drop offset).take n
  | none => sorted.drop offset

theorem get_pokemon_by_generation_ok
    (fetchGen : String → Except ReqError GenRecord)
    (fetchType : String → Except ReqError TypeRecord) (gid : PyIdent)
    (limit : Option Nat) (offset : Nat) (type_filter : Option String)
    (gd : GenRecord) (filtered : List NamedRes)
    (hgen : fetchGen ("generation/" ++ pyLower (pyStr gid)) = .ok gd)
    (hfilter : applyTypeFilter fetchType type_filter gd.pokemon_species = .ok filtered)
    (hurls : filtered.all (fun p => (urlKey? p.url).isSome) = true) :
    get_pokemon_by_generation fetchGen fetchType gid limit offset type_filter =
      .ok (generationMembersSpec filtered limit offset) := by
  simp only [get_pokemon_by_generation, hgen, hfilter]
  rw [if_pos hurls]
  cases limit <;> rfl

/-- C3: whenever every member URL carries an integer second-to-last path
segment, `get_pokemon_by_generation` returns the (possibly type-filtered)
member list sorted ascending by that parsed id, with the first `offset`
elements dropped and — when a limit is given — truncated to at most `limit`
elements; an offset at or beyond the list length yields an empty sequence
without error, and a limit of zero yields an empty sequence. -/
theorem claim_C3_generation_sort_paginate
    (fetchGen : String → Except ReqError GenRecord)
    (fetchType : String → Except ReqError TypeRecord) (gid : PyIdent)
    (limit : Option Nat) (offset : Nat) (type_filter : Option String)
    (gd : GenRecord) (filtered : List NamedRes)
    (hgen : fetchGen ("generation/" ++ pyLower (pyStr gid)) = .ok gd)
    (hfilter : applyTypeFilter fetchType type_filter gd.pokemon_species = .ok filtered)
    (hurls : filtered.all (fun p => (urlKey? p.url).isSome) = true) :
    get_pokemon_by_generation fetchGen fetchType gid limit offset type_filter =
      .ok (generationMembersSpec filtered limit offset) ∧
    List.Pairwise (fun a b => genSortKey a ≤ genSortKey b)
      (generationMembersSpec filtered limit offset) ∧
    (filtered.length ≤ offset →
      get_pokemon_by_generation fetchGen fetchType gid limit offset type_filter =
        .ok []) ∧
    (limit = some 0 →
      get_pokemon_by_generation fetchGen fetchType gid limit offset type_filter =
        .ok []) := by
  have hmain := get_pokemon_by_generation_ok fetchGen fetchType gid limit offset
    type_filter gd filtered hgen hfilter hurls
  have hpw := pySortByKey_pairwise genSortKey filtered
  refine ⟨hmain, ?_, ?_, ?_⟩
  · unfold generationMembersSpec
    cases limit with
    | none => exact hpw.sublist (List.drop_sublist _ _)
    | some n =>
      exact hpw.sublist (List.Sublist.trans (List.take_sublist _ _) (List.drop_sublist _ _))
  · intro hoff
    rw [hmain]
    have hdrop : (pySortByKey genSortKey filtered).drop offset = [] :=
      List.drop_eq_nil_of_le (by rw [pySortByKey_length]; exact hoff)
    unfold generationMembersSpec
    cases limit <;> simp [hdrop]
  · intro hlim
    subst hlim
    rw [hmain]
    unfold generationMembersSpec
    simp

/-- Concrete generation member with member URL carrying id 1. -/
def demoMember : NamedRes :=
  ⟨"bulbasaur", "https://pokeapi.co/api/v2/pokemon-species/1/"⟩

/-- Witness for C3: one concrete member, no filter, no limit, offset 0. -/
theorem claim_C3_generation_sort_paginate_witness :
    get_pokemon_by_generation (fun _ => .ok ⟨[demoMember]⟩)
      (fun _ => .ok (⟨[]⟩ : TypeRecord)) (.str "generation-i") none 0 none =
      .ok [demoMember] := by
  have h := (claim_C3_generation_sort_paginate (fun _ => .ok ⟨[demoMember]⟩)
    (fun _ => .ok (⟨[]⟩ : TypeRecord)) (.str "generation-i") none 0 none
    ⟨[demoMember]⟩ [demoMember] rfl rfl (by decide)).1
  rw [h]
  simp [generationMembersSpec, pySortByKey, List.mergeSort_singleton]

/-- C4 counterexample: the filter condition is Python truthiness, so the
supplied empty-string typeFilter is skipped entirely: with a remote whose
type record for the empty name has no members, `find_pokemon_by_type ""`
yields no names, yet `get_pokemon_by_generation` keeps a member whose name is
in no type-search result — the claim's "keeps exactly those members whose
name is in the set yielded by findByType" fails for typeFilter `""`. -/
theorem claim_C4_counterexample :
    get_pokemon_by_generation (fun _ => .ok ⟨[demoMember]⟩)
      (fun _ => .ok (⟨[]⟩ : TypeRecord)) (.str "generation-i") none 0 (some "") =
      .ok [demoMember] ∧
    find_pokemon_by_type (fun _ => .ok (⟨[]⟩ : TypeRecord)) "" = .ok [] ∧
    demoMember.name ∉ (([] : List NamedRes).map (fun q => q.name)) := by
  refine ⟨?_, rfl, by simp⟩
  have h := get_pokemon_by_generation_ok (fun _ => .ok ⟨[demoMember]⟩)
    (fun _ => .ok (⟨[]⟩ : TypeRecord)) (.str "generation-i") none 0 (some "")
    ⟨[demoMember]⟩ [demoMember] rfl rfl (by decide)
  rw [h]
  simp [generationMembersSpec, pySortByKey, List.mergeSort_singleton]

/-- C4 amended: for every generation and every supplied non-empty typeFilter
(Python truthiness skips the filter for the empty string),
`get_pokemon_by_generation` keeps exactly the generation members whose name
is among the names yielded by `find_pokemon_by_type` for that type — tested
by case-sensitive exact string equality with no normalisation of the
type-search results — where `find_pokemon_by_type` yields the inner
`pokemon` summary of each membership entry of the type record, in the
remote's order, from one type-record fetch. -/
theorem claim_C4_amended_type_filter
    (fetchGen : String → Except ReqError GenRecord)
    (fetchType : String → Except ReqError TypeRecord) (gid : PyIdent)
    (limit : Option Nat) (offset : Nat) (t : String)
    (gd : GenRecord) (td : TypeRecord)
    (ht : t ≠ "")
    (hgen : fetchGen ("generation/" ++ pyLower (pyStr gid)) = .ok gd)
    (htype : fetchType ("type/" ++ pyLower t) = .ok td)
    (hurls : (gd.pokemon_species.filter (fun p =>
        (td.pokemon.map (fun s => s.pokemon.name)).contains p.name)).all
        (fun p => (urlKey? p.url).isSome) = true) :
    find_pokemon_by_type fetchType t = .ok (td.pokemon.map (fun s => s.pokemon)) ∧
    get_pokemon_by_generation fetchGen fetchType gid limit offset (some t) =
      .ok (generationMembersSpec
        (gd.pokemon_species.filter (fun p =>
          (td.pokemon.map (fun s => s.pokemon.name)).contains p.name))
        limit offset) := by
  have hfind : find_pokemon_by_type fetchType t =
      .ok (td.pokemon.map (fun s => s.pokemon)) := by
    rw [find_pokemon_by_type, htype]
    rfl
  refine ⟨hfind, ?_⟩
  apply get_pokemon_by_generation_ok fetchGen fetchType gid limit offset (some t)
    gd _ hgen ?_ hurls
  rw [applyTypeFilter]
  simp only [if_pos ht, hfind]
  rw [Except.map]
  simp [List.map_map, Function.comp]

/-- Generation-6 grass member for the C4 witness. -/
def demoGrassMember : NamedRes :=
  ⟨"chespin", "https://pokeapi.co/api/v2/pokemon-species/650/"⟩

/-- Generation-6 non-grass member for the C4 witness. -/
def demoFireMember : NamedRes :=
  ⟨"fennekin", "https://pokeapi.co/api/v2/pokemon-species/653/"⟩

/-- Two-member generation record for the C4 witness. -/
def demoGen : GenRecord := ⟨[demoGrassMember, demoFireMember]⟩

/-- Type record whose sole membership entry is chespin, for the C4 witness. -/
def demoGrassType : TypeRecord :=
  ⟨[⟨⟨"chespin", "https://pokeapi.co/api/v2/pokemon/650/"⟩⟩]⟩

/-- Witness for the amended C4: filtering a two-member generation by a type
whose record lists only `chespin` keeps exactly the chespin member. -/
theorem claim_C4_amended_type_filter_witness :
    get_pokemon_by_generation (fun _ => .ok demoGen) (fun _ => .ok demoGrassType)
      (.str "generation-vi") none 0 (some "grass") = .ok [demoGrassMember] ∧
    find_pokemon_by_type (fun _ => .ok demoGrassType) "grass" =
      .ok [⟨"chespin", "https://pokeapi.co/api/v2/pokemon/650/"⟩] := by
  have h := claim_C4_amended_type_filter (fun _ => .ok demoGen)
    (fun _ => .ok demoGrassType) (.str "generation-vi") none 0 "grass"
    demoGen demoGrassType (by decide) rfl rfl (by decide)
  have hfilter_eval : demoGen.pokemon_species.filter (fun p =>
      (demoGrassType.pokemon.map (fun s => s.pokemon.name)).contains p.name) =
      [demoGrassMember] := by decide
  refine ⟨?_, ?_⟩
  · rw [h.2, hfilter_eval]
    simp [generationMembersSpec, pySortByKey, List.mergeSort_singleton]
  · rw [h.1]
    rfl

end PokeSDK
